import Mathlib

/-!
Shallow embedding of the `CPP-Project-Guide` calculator repository.

Sources embedded:
* `src/utils/math_utils.cpp`        (namespace `Calc::Utils`)
* `src/calculator/basic_calculator.cpp` and the two headers.

Modelling conventions:
* A finite `double` value is modelled as an exact rational number (`ℚ`).
  Rounding of finite arithmetic is not modelled; a finite result whose
  magnitude exceeds the largest finite double `MAXD = (2^53 - 1) * 2^971`
  overflows to the corresponding signed infinity, as IEEE-754 arithmetic
  does.  The type `EDouble` adds the special values `+inf`, `-inf`, `nan`
  that `double` has, with the IEEE sign/propagation rules for them.
* The default epsilon argument `1e-9` of `isZero`/`areEqual` is the exact
  rational `10^-9` (the value of the C++ literal up to one unit in the
  last place, which no claim's input sits on).
* C++ exceptions are modelled by `Except`: `CalculatorError` carries one
  constructor per `throw` site of `basic_calculator.cpp` (each site has a
  distinct message string), and `MathError` distinguishes
  `std::invalid_argument` from `std::overflow_error` as thrown by
  `math_utils.cpp`.
* The `int` parameters of `factorial` and `power` are modelled as `Int`;
  the two's-complement wraparound of `-exponent` at `INT_MIN = -2^31`,
  which the ideal `Int` negation hides, is modelled separately by
  `wrap32` and the fuelled evaluator `powerFuel`.
-/

namespace Calc

/-- The default epsilon `1e-9` of `Utils::isZero` and `Utils::areEqual`
(`math_utils.hpp`), as the exact rational `10^-9`. -/
def EPS : ℚ := 1 / 1000000000

/-- The largest finite IEEE-754 binary64 value, `(2^53 - 1) * 2^971`,
written as a numeral so that it evaluates by `decide`/`rfl`
(`MAXD_eq` below proves it equal to the product form). -/
def MAXD : ℚ := 179769313486231570814527423731704356798070567525844996598917476803157260780028538760589558632766878171540458953514382464234321326889464182768467546703537516986049910576551282076245490090389328944075868508455133942304583236903222948165808559332123348274797826204144723168738177180919299881250404026184124858368

/-- The exact rational value of the C `M_PI` double constant used by
`degreeToRadian` / `radianToDegree`. -/
def M_PI : ℚ := 884279719003555 / 2 ^ 48

namespace Utils

/-- `std::abs` on a finite double value. -/
def absQ (q : ℚ) : ℚ := if q < 0 then -q else q

/-- `bool isZero(double value, double epsilon = 1e-9)`:
`std::abs(value) < epsilon` (`math_utils.cpp`). -/
def isZero (value epsilon : ℚ) : Bool := absQ value < epsilon

/-- `bool areEqual(double a, double b, double epsilon = 1e-9)`:
`std::abs(a - b) < epsilon` (`math_utils.cpp`). -/
def areEqual (a b epsilon : ℚ) : Bool := absQ (a - b) < epsilon

end Utils

/-- A `double` value: an exact finite rational, or one of the IEEE-754
special values `+inf`, `-inf`, `nan`. -/
inductive EDouble : Type
  | fin (q : ℚ)
  | pinf
  | ninf
  | nan
deriving DecidableEq, Repr

namespace EDouble

/-- Overflow behaviour of a finite arithmetic result: magnitudes beyond
the largest finite double become the signed infinity. -/
def roundD (q : ℚ) : EDouble :=
  if q > MAXD then .pinf else if q < -MAXD then .ninf else .fin q

/-- IEEE-754 addition on `EDouble` (`a + b` in the C++ source). -/
def add : EDouble → EDouble → EDouble
  | nan, _ => nan
  | _, nan => nan
  | pinf, ninf => nan
  | ninf, pinf => nan
  | pinf, _ => pinf
  | ninf, _ => ninf
  | _, pinf => pinf
  | _, ninf => ninf
  | fin a, fin b => roundD (a + b)

/-- IEEE-754 subtraction on `EDouble` (`a - b` in the C++ source). -/
def sub : EDouble → EDouble → EDouble
  | nan, _ => nan
  | _, nan => nan
  | pinf, pinf => nan
  | ninf, ninf => nan
  | pinf, _ => pinf
  | ninf, _ => ninf
  | _, pinf => ninf
  | _, ninf => pinf
  | fin a, fin b => roundD (a - b)

/-- IEEE-754 multiplication on `EDouble` (`a * b` in the C++ source). -/
def mul : EDouble → EDouble → EDouble
  | nan, _ => nan
  | _, nan => nan
  | pinf, pinf => pinf
  | pinf, ninf => ninf
  | ninf, pinf => ninf
  | ninf, ninf => pinf
  | pinf, fin b => if b > 0 then pinf else if b < 0 then ninf else nan
  | ninf, fin b => if b > 0 then ninf else if b < 0 then pinf else nan
  | fin a, pinf => if a > 0 then pinf else if a < 0 then ninf else nan
  | fin a, ninf => if a > 0 then ninf else if a < 0 then pinf else nan
  | fin a, fin b => roundD (a * b)

/-- IEEE-754 division on `EDouble` (`a / b` in the C++ source; signed
zeroes are not distinguished, the zero-divisor case takes the `+0`
sign). -/
def div : EDouble → EDouble → EDouble
  | nan, _ => nan
  | _, nan => nan
  | pinf, pinf => nan
  | pinf, ninf => nan
  | ninf, pinf => nan
  | ninf, ninf => nan
  | pinf, fin b => if b < 0 then ninf else pinf
  | ninf, fin b => if b < 0 then pinf else ninf
  | fin _, pinf => fin 0
  | fin _, ninf => fin 0
  | fin a, fin b =>
      if b = 0 then (if a = 0 then nan else if a > 0 then pinf else ninf)
      else roundD (a / b)

/-- `std::isinf`: true exactly on the two infinities (false on `nan`). -/
def isInf : EDouble → Bool
  | pinf => true
  | ninf => true
  | _ => false

/-- `std::isfinite`: true exactly on finite values. -/
def isFinite : EDouble → Bool
  | fin _ => true
  | _ => false

/-- `Utils::isZero` applied to a full `double` value, as `divide` does:
`std::abs(v) < 1e-9`, which is false for infinities and `nan` (any
comparison with `nan` is false). -/
def isZeroD : EDouble → Bool
  | fin q => Utils.isZero q EPS
  | _ => false

end EDouble

/-- Error type of `BasicCalculator`: the class `CalculatorError`, one
constructor per `throw` site (each has a distinct message string). -/
inductive CalculatorError : Type
  | additionOverflow        -- throw CalculatorError("Addition Overflow")
  | substractionOverflow    -- throw CalculatorError("Substraction Overflow")
  | multiplicationOverflow  -- throw CalculatorError("Multiplication Overflow")
  | divisionByZero          -- throw CalculatorError("Division by zero")
deriving DecidableEq, Repr

/-- The state of a `BasicCalculator` object: fields `memory_` and
`last_result_`, both default-initialised to `0.0`
(`basic_calculator.hpp`). -/
structure BasicCalculator : Type where
  memory_ : EDouble := .fin 0
  last_result_ : EDouble := .fin 0
deriving DecidableEq, Repr

namespace BasicCalculator

/-- `void updateLastResult(double result)`: `last_result_ = result`. -/
def updateLastResult (c : BasicCalculator) (result : EDouble) : BasicCalculator :=
  { c with last_result_ := result }

/-- `double add(double a, double b)`: computes `a + b`, throws
`CalculatorError("Addition Overflow")` if `std::isinf(result)`, otherwise
updates `last_result_` and returns the result.  A throwing call returns
the unchanged state. -/
def add (c : BasicCalculator) (a b : EDouble) :
    Except CalculatorError EDouble × BasicCalculator :=
  let result := a.add b
  if result.isInf then (.error .additionOverflow, c)
  else (.ok result, c.updateLastResult result)

/-- `double substract(double a, double b)` (spelling as in the source):
same shape as `add` with `a - b` and `"Substraction Overflow"`. -/
def substract (c : BasicCalculator) (a b : EDouble) :
    Except CalculatorError EDouble × BasicCalculator :=
  let result := a.sub b
  if result.isInf then (.error .substractionOverflow, c)
  else (.ok result, c.updateLastResult result)

/-- `double multiply(double a, double b)`: same shape with `a * b` and
`"Multiplication Overflow"`. -/
def multiply (c : BasicCalculator) (a b : EDouble) :
    Except CalculatorError EDouble × BasicCalculator :=
  let result := a.mul b
  if result.isInf then (.error .multiplicationOverflow, c)
  else (.ok result, c.updateLastResult result)

/-- `double divide(double a, double b)`: throws
`CalculatorError("Division by zero")` if `Utils::isZero(b)`, otherwise
computes `a / b`, updates `last_result_` and returns it — with no
overflow check on the quotient. -/
def divide (c : BasicCalculator) (a b : EDouble) :
    Except CalculatorError EDouble × BasicCalculator :=
  if b.isZeroD then (.error .divisionByZero, c)
  else
    let result := a.div b
    (.ok result, c.updateLastResult result)

/-- `void memoryStore(double value)`: `memory_ = value`. -/
def memoryStore (c : BasicCalculator) (value : EDouble) : BasicCalculator :=
  { c with memory_ := value }

/-- `double memoryRecall() const`: returns `memory_`. -/
def memoryRecall (c : BasicCalculator) : EDouble := c.memory_

/-- `void memoryClear()`: `memory_ = 0.0`. -/
def memoryClear (c : BasicCalculator) : BasicCalculator :=
  { c with memory_ := .fin 0 }

/-- `void clear()`: `last_result_ = 0.0`. -/
def clear (c : BasicCalculator) : BasicCalculator :=
  { c with last_result_ := .fin 0 }

/-- `double getLastResult() const`: returns `last_result_`. -/
def getLastResult (c : BasicCalculator) : EDouble := c.last_result_

end BasicCalculator

/-- Error type of the `Calc::Utils` functions: the two standard exception
classes thrown by `math_utils.cpp`. -/
inductive MathError : Type
  | invalidArgument  -- std::invalid_argument
  | overflowError    -- std::overflow_error
deriving DecidableEq, Repr

namespace Utils

/-- The loop of `factorial`:
`double result = 1.0; for (int i = 2; i <= n; ++i) result *= i;`,
a left-to-right product accumulated from `1.0`.  `List.range' 2 (n - 1)`
is the index sequence `[2, 3, …, n]`. -/
def factLoop (n : Nat) : ℚ :=
  (List.range' 2 (n - 1)).foldl (fun (result : ℚ) (i : ℕ) => result * (i : ℚ)) 1

/-- `double factorial(int n)` (`math_utils.cpp`): throws
`std::invalid_argument` for `n < 0`, `std::overflow_error` for `n > 170`,
returns `1.0` for `n <= 1`, otherwise the loop product. -/
def factorial (n : Int) : Except MathError ℚ :=
  if n < 0 then .error .invalidArgument
  else if n > 170 then .error .overflowError
  else if n ≤ 1 then .ok 1
  else .ok (factLoop n.toNat)

/-- The binary-exponentiation loop of `power`:
`while (exponent > 0) { if (exponent & 1) result *= current_power;
current_power *= current_power; exponent >>= 1; }`.
For a non-negative `int`, `exponent & 1` is `exponent % 2` and
`exponent >>= 1` is `exponent / 2`. -/
def powLoop (result current_power : ℚ) (exponent : Nat) : ℚ :=
  if exponent > 0 then
    powLoop (if exponent % 2 = 1 then result * current_power else result)
      (current_power * current_power) (exponent / 2)
  else result
termination_by exponent
decreasing_by exact Nat.div_lt_self (by omega) (by omega)

/-- `double power(double base, int exponent)` (`math_utils.cpp`):
returns `1.0` for exponent `0`; for a negative exponent throws
`std::invalid_argument` when `isZero(base)` and otherwise returns
`1.0 / power(base, -exponent)`; for a positive exponent runs the
binary-exponentiation loop with `result = 1.0`,
`current_power = base`. -/
def power (base : ℚ) (exponent : Int) : Except MathError ℚ :=
  if exponent = 0 then .ok 1
  else if h : exponent < 0 then
    if isZero base EPS then .error .invalidArgument
    else (power base (-exponent)).map (fun r => 1 / r)
  else .ok (powLoop 1 base exponent.toNat)
termination_by if exponent < 0 then 1 else 0
decreasing_by
  have h1 : ¬(-exponent < 0) := by omega
  simp [h, h1]

/-- `double degreeToRadian(double degrees)`: `degrees * M_PI / 180.0`,
computed left-to-right in double arithmetic — the product `degrees * M_PI`
can overflow to `+inf` for large finite inputs. -/
def degreeToRadian (degrees : EDouble) : EDouble :=
  (degrees.mul (.fin M_PI)).div (.fin 180)

/-- `double radianToDegree(double radians)`: `radians * 180.0 / M_PI`,
computed left-to-right in double arithmetic — the product `radians * 180.0`
can overflow to `+inf` for large finite inputs. -/
def radianToDegree (radians : EDouble) : EDouble :=
  (radians.mul (.fin 180)).div (.fin M_PI)

/-- `Utils::areEqual` applied to full `double` values:
`std::abs(a - b) < epsilon`, where the difference `a - b` is computed in
double arithmetic.  If `a - b` is infinite or NaN the comparison is false
(any ordered comparison with `inf - inf = nan`, `±inf` against a finite
epsilon is false). -/
def areEqualD (a b : EDouble) (epsilon : ℚ) : Bool :=
  match a.sub b with
  | .fin q => absQ q < epsilon
  | _ => false

/-- Two's-complement wraparound of a 32-bit signed `int` value: the
machine value of an `int` expression whose mathematical value is `x`.
`wrap32 (-(-2^31)) = -2^31`: negating `INT_MIN` wraps to itself. -/
def wrap32 (x : Int) : Int := (x + 2 ^ 31) % 2 ^ 32 - 2 ^ 31

/-- `power` exactly as compiled for a 32-bit `int` exponent: the
recursive call receives the machine value `wrap32 (-exponent)` (the C++
negation of `INT_MIN` overflows; on two's-complement hardware it wraps
back to `INT_MIN`).  Because that recursion need not terminate, the
evaluator is fuelled: `none` means the recursion depth exceeded the
fuel. -/
def powerFuel : Nat → ℚ → Int → Option (Except MathError ℚ)
  | 0, _, _ => none
  | fuel + 1, base, exponent =>
    if exponent = 0 then some (.ok 1)
    else if exponent < 0 then
      if isZero base EPS then some (.error .invalidArgument)
      else (powerFuel fuel base (wrap32 (-exponent))).map
        (Except.map (fun r => 1 / r))
    else some (.ok (powLoop 1 base exponent.toNat))

end Utils

end Calc

/-! ### Helper lemmas -/

namespace Calc

open Utils

/-- The `MAXD` numeral is `(2^53 - 1) * 2^971`. -/
lemma MAXD_eq : MAXD = (2 ^ 53 - 1) * 2 ^ 971 := by norm_num [MAXD]

/-- The modelled `std::abs` is the mathematical absolute value. -/
lemma absQ_eq_abs (q : ℚ) : absQ q = |q| := by
  unfold absQ
  split
  · exact (abs_of_neg (by assumption)).symm
  · exact (abs_of_nonneg (by linarith)).symm

/-- The factorial loop over `[2, …, k+1]` computes `(k+1)!`. -/
lemma factLoop_aux (k : Nat) :
    (List.range' 2 k).foldl (fun (result : ℚ) (i : ℕ) => result * (i : ℚ)) 1 =
      (Nat.factorial (k + 1) : ℚ) := by
  induction k with
  | zero => simp [Nat.factorial]
  | succ k ih =>
    rw [List.range'_concat, List.foldl_append, ih]
    simp only [List.foldl_cons, List.foldl_nil, Nat.factorial_succ]
    push_cast
    ring

/-- For `n ≥ 1` the factorial loop computes `n!`. -/
lemma factLoop_eq_factorial (n : Nat) (h : 1  ≤ n) :
    factLoop n = (Nat.factorial n : ℚ) := by
  unfold factLoop
  have h2 : n - 1 + 1 = n := by omega
  rw [factLoop_aux, h2]

/-- On the accepted domain `0 ≤ n ≤ 170`, `factorial` returns `n!`. -/
lemma factorial_eq_ok (n : Int) (h0 : 0 ≤ n) (h1 : n ≤ 170) :
    factorial n = .ok ((Nat.factorial n.toNat : ℚ)) := by
  unfold factorial
  rw [if_neg (by omega), if_neg (by omega)]
  by_cases h2 : n ≤ 1
  · rw [if_pos h2]
    have : n = 0 ∨ n = 1 := by omega
    rcases this with h | h <;> subst h <;> simp [Nat.factorial]
  · rw [if_neg h2, factLoop_eq_factorial n.toNat (by omega)]

set_option maxRecDepth 8000 in
/-- For `k ≤ 170`, `k!` fits under the largest finite double. -/
lemma factorial_cast_le_MAXD (k : Nat) (h : k ≤ 170) :
    (Nat.factorial k : ℚ) ≤ MAXD := by
  have h1 : Nat.factorial k ≤ Nat.factorial 170 := Nat.factorial_le h
  have h2 : Nat.factorial 170 ≤ 9007199254740991 * 2 ^ 971 := by decide
  have h3 : (Nat.factorial k : ℚ) ≤ ((9007199254740991 * 2 ^ 971 : ℕ) : ℚ) :=
    Nat.cast_le.mpr (le_trans h1 h2)
  have h4 : ((9007199254740991 * 2 ^ 971 : ℕ) : ℚ) = MAXD := by
    unfold MAXD
    push_cast
    norm_num
  rw [h4] at h3
  exact h3

/-- The binary-exponentiation loop satisfies the classic invariant
`powLoop r c e = r * c ^ e`. -/
lemma powLoop_eq (e : Nat) : ∀ r c : ℚ, powLoop r c e = r * c ^ e := by
  induction e using Nat.strong_induction_on with
  | _ e ih =>
    intro r c
    rw [powLoop]
    by_cases h : e > 0
    · rw [if_pos h, ih (e / 2) (Nat.div_lt_self h (by omega))]
      have hsq : (c * c) ^ (e / 2) = c ^ (2 * (e / 2)) := by
        rw [← pow_two, ← pow_mul]
      by_cases he : e % 2 = 1
      · rw [if_pos he, hsq]
        have h3 : e = 2 * (e / 2) + 1 := by omega
        calc r * c * c ^ (2 * (e / 2)) = r * c ^ (2 * (e / 2) + 1) := by ring
          _ = r * c ^ e := by rw [← h3]
      · rw [if_neg he, hsq]
        have h3 : 2 * (e / 2) = e := by omega
        rw [h3]
    · rw [if_neg h]
      have : e = 0 := by omega
      subst this
      simp

set_option maxHeartbeats 1600000 in
/-- Unfolding of `power` at exponent `0`. -/
lemma power_zero_eq (base : ℚ) : power base 0 = .ok 1 := by
  rw [power.eq_def]
  simp

/-- Unfolding of `power` at a positive exponent: the loop runs. -/
lemma power_pos_eq (base : ℚ) (e : Int) (h : 0 < e) :
    power base e = .ok (powLoop 1 base e.toNat) := by
  rw [power.eq_def, if_neg (by omega : ¬e = 0), dif_neg (by omega : ¬e < 0)]

/-- Unfolding of `power` at a negative exponent with a near-zero base. -/
lemma power_neg_zero_base (base : ℚ) (e : Int) (h : e < 0)
    (hz : isZero base EPS = true) : power base e = .error .invalidArgument := by
  rw [power.eq_def, if_neg (by omega : ¬e = 0), dif_pos h, if_pos hz]

/-- Unfolding of `power` at a negative exponent with a non-zero base: the
reciprocal of the recursive call at `-e`. -/
lemma power_neg_eq (base : ℚ) (e : Int) (h : e < 0)
    (hz : isZero base EPS = false) :
    power base e = (power base (-e)).map (fun r => 1 / r) := by
  rw [power.eq_def, if_neg (by omega : ¬e = 0), dif_pos h, if_neg (by simp [hz])]

/-- A finite result within the representable range does not overflow. -/
lemma roundD_of_abs_le (q : ℚ) (h : |q| ≤ MAXD) : EDouble.roundD q = .fin q := by
  unfold EDouble.roundD
  rw [abs_le] at h
  rw [if_neg (by linarith [h.2]), if_neg (by linarith [h.1])]

/-- A finite result beyond the representable range overflows to `+inf`. -/
lemma roundD_of_gt (q : ℚ) (h : MAXD < q) : EDouble.roundD q = .pinf := by
  unfold EDouble.roundD
  rw [if_pos h]

/-- Multiplication of two finite doubles rounds the exact product. -/
lemma EDouble.mul_fin (a b : ℚ) :
    (EDouble.fin a).mul (.fin b) = EDouble.roundD (a * b) := rfl

/-- Subtraction of two finite doubles rounds the exact difference. -/
lemma EDouble.sub_fin (a b : ℚ) :
    (EDouble.fin a).sub (.fin b) = EDouble.roundD (a - b) := rfl

/-- Division of finite doubles by a non-zero divisor rounds the exact
quotient. -/
lemma EDouble.div_fin (a b : ℚ) (h : b ≠ 0) :
    (EDouble.fin a).div (.fin b) = EDouble.roundD (a / b) := by
  show (if b = 0 then _ else EDouble.roundD (a / b)) = _
  rw [if_neg h]

/-- Two steps of fuel run `powerFuel` to completion on every exponent
above `INT_MIN`, and it computes exactly `power` there: the wraparound
`wrap32` is invisible away from `INT_MIN`. -/
lemma powerFuel_eq_power (base : ℚ) (e : Int) (h : -(2 ^ 31) < e) :
    powerFuel 2 base e = some (power base e) := by
  rw [powerFuel]
  by_cases h0 : e = 0
  · subst h0
    rw [power_zero_eq]
    simp
  · rw [if_neg h0]
    by_cases hneg : e < 0
    · rw [if_pos hneg]
      by_cases hz : isZero base EPS = true
      · rw [if_pos hz, power_neg_zero_base base e hneg hz]
      · have hz2 : isZero base EPS = false := by
          revert hz
          cases isZero base EPS <;> simp
        rw [if_neg (by simp [hz2]), power_neg_eq base e hneg hz2]
        have hw : wrap32 (-e) = -e := by
          unfold wrap32
          omega
        rw [hw, powerFuel, if_neg (by omega : ¬-e = 0),
          if_neg (by omega : ¬-e < 0), power_pos_eq base (-e) (by omega)]
        rfl
    · rw [if_neg hneg, power_pos_eq base e (by omega)]

end Calc

/-! ### Claim theorems -/

namespace Calc

open Utils

/-- Claim C1, counterexample: `add(+inf, -inf)` computes NaN — not a
finite real number — yet the source's `std::isinf(result)` check is false
on NaN, so no `OverflowError` is raised: the call succeeds, returns NaN
and stores it in `last_result_`, refuting "each raises OverflowError
whenever its computed result is not a finite real number (infinite or
not-a-number)". -/
theorem C1_cex_add_nan_not_raised :
    ({} : BasicCalculator).add .pinf .ninf = (.ok .nan, ⟨.fin 0, .nan⟩) ∧
    EDouble.isFinite .nan = false := by
  constructor
  · simp [BasicCalculator.add, EDouble.add, EDouble.isInf,
      BasicCalculator.updateLastResult]
  · rfl

/-- Claim C1 (amended): `add`/`substract`/`multiply` raise their
`CalculatorError` overflow exception exactly when the computed result is
infinite (`std::isinf`); a NaN result is not detected and is returned and
stored.  In particular, for finite operands whose exact result is within
the representable range, each returns that exact result and updates
`last_result_` to it. -/
theorem C1_arith_exact_or_overflow (c : BasicCalculator) (a b : EDouble)
    (qa qb : ℚ) :
    ((a.add b).isInf = true → c.add a b = (.error .additionOverflow, c)) ∧
    ((a.sub b).isInf = true →
      c.substract a b = (.error .substractionOverflow, c)) ∧
    ((a.mul b).isInf = true →
      c.multiply a b = (.error .multiplicationOverflow, c)) ∧
    (|qa + qb| ≤ MAXD → c.add (.fin qa) (.fin qb) =
      (.ok (.fin (qa + qb)), { c with last_result_ := .fin (qa + qb) })) ∧
    (|qa - qb| ≤ MAXD → c.substract (.fin qa) (.fin qb) =
      (.ok (.fin (qa - qb)), { c with last_result_ := .fin (qa - qb) })) ∧
    (|qa * qb| ≤ MAXD → c.multiply (.fin qa) (.fin qb) =
      (.ok (.fin (qa * qb)), { c with last_result_ := .fin (qa * qb) })) := by
  refine ⟨?_, ?_, ?_, ?_, ?_, ?_⟩
  · intro h
    simp [BasicCalculator.add, h]
  · intro h
    simp [BasicCalculator.substract, h]
  · intro h
    simp [BasicCalculator.multiply, h]
  · intro h
    have hr : EDouble.add (.fin qa) (.fin qb) = .fin (qa + qb) := by
      show EDouble.roundD (qa + qb) = _
      exact roundD_of_abs_le _ h
    simp [BasicCalculator.add, hr, EDouble.isInf,
      BasicCalculator.updateLastResult]
  · intro h
    have hr : EDouble.sub (.fin qa) (.fin qb) = .fin (qa - qb) := by
      show EDouble.roundD (qa - qb) = _
      exact roundD_of_abs_le _ h
    simp [BasicCalculator.substract, hr, EDouble.isInf,
      BasicCalculator.updateLastResult]
  · intro h
    have hr : EDouble.mul (.fin qa) (.fin qb) = .fin (qa * qb) := by
      show EDouble.roundD (qa * qb) = _
      exact roundD_of_abs_le _ h
    simp [BasicCalculator.multiply, hr, EDouble.isInf,
      BasicCalculator.updateLastResult]

/-- Claim C1, witness: `add(2, 3)` on a fresh calculator returns `5` and
stores it. -/
theorem C1_witness :
    |(2 : ℚ) + 3| ≤ MAXD ∧
    ({} : BasicCalculator).add (.fin 2) (.fin 3) =
      (.ok (.fin 5), ⟨.fin 0, .fin 5⟩) := by
  have h : |(2 : ℚ) + 3| ≤ MAXD := by
    rw [MAXD_eq]
    norm_num
  refine ⟨h, ?_⟩
  have h2 := (C1_arith_exact_or_overflow {} (.fin 2) (.fin 3) 2 3).2.2.2.1 h
  norm_num at h2
  exact h2

/-- Claim C2: `divide(a, b)` raises the division-by-zero
`CalculatorError` exactly when `Utils::isZero(b)` holds — for finite `b`,
exactly when `std::abs(b) < 1e-9` — and otherwise succeeds before any
overflow check: it returns `a / b` and stores it in `last_result_`, even
when the quotient is infinite. -/
theorem C2_divide_spec (c : BasicCalculator) (a b : EDouble) (qb : ℚ) :
    ((c.divide a b).1 = .error .divisionByZero ↔ b.isZeroD = true) ∧
    (b.isZeroD = false → c.divide a b =
      (.ok (a.div b), { c with last_result_ := a.div b })) ∧
    (EDouble.isZeroD (.fin qb) = true ↔ absQ qb < EPS) := by
  refine ⟨?_, ?_, ?_⟩
  · by_cases hz : b.isZeroD = true
    · simp [BasicCalculator.divide, hz]
    · simp [BasicCalculator.divide, hz]
  · intro hz
    simp [BasicCalculator.divide, hz, BasicCalculator.updateLastResult]
  · simp [EDouble.isZeroD, isZero]

/-- Claim C2, witness: `b = 1e-9` is not treated as zero, and dividing
the largest finite double by it succeeds with an infinite quotient and no
exception. -/
theorem C2_witness :
    EDouble.isZeroD (.fin EPS) = false ∧
    ({} : BasicCalculator).divide (.fin MAXD) (.fin EPS) =
      (.ok .pinf, ⟨.fin 0, .pinf⟩) := by
  have hz : EDouble.isZeroD (.fin EPS) = false := by
    norm_num [EDouble.isZeroD, isZero, absQ, EPS]
  refine ⟨hz, ?_⟩
  have h := (C2_divide_spec {} (.fin MAXD) (.fin EPS) 0).2.1 hz
  rw [h]
  norm_num [EDouble.div, EDouble.roundD, MAXD, EPS,
    BasicCalculator.updateLastResult]

/-- Claim C3: whenever an arithmetic operation raises, the calculator
state — both `memory_` and `last_result_` — is exactly its pre-call
value: failures are atomic no-ops. -/
theorem C3_failure_atomic (c : BasicCalculator) (a b : EDouble)
    (e : CalculatorError) :
    ((c.add a b).1 = .error e → (c.add a b).2 = c) ∧
    ((c.substract a b).1 = .error e → (c.substract a b).2 = c) ∧
    ((c.multiply a b).1 = .error e → (c.multiply a b).2 = c) ∧
    ((c.divide a b).1 = .error e → (c.divide a b).2 = c) := by
  refine ⟨?_, ?_, ?_, ?_⟩ <;>
  · simp only [BasicCalculator.add, BasicCalculator.substract,
      BasicCalculator.multiply, BasicCalculator.divide]
    split <;> simp

/-- Claim C3, witness: a division by zero leaves a fresh calculator's
state untouched. -/
theorem C3_witness :
    (({} : BasicCalculator).divide (.fin 1) (.fin 0)).1 =
      .error .divisionByZero ∧
    (({} : BasicCalculator).divide (.fin 1) (.fin 0)).2 = {} := by
  have h1 : (({} : BasicCalculator).divide (.fin 1) (.fin 0)).1 =
      .error .divisionByZero := by
    norm_num [BasicCalculator.divide, EDouble.isZeroD, isZero, absQ, EPS]
  exact ⟨h1, (C3_failure_atomic {} (.fin 1) (.fin 0) .divisionByZero).2.2.2 h1⟩

/-- Claim C4: `factorial(n)` throws `std::invalid_argument` for `n < 0`
and `std::overflow_error` for `n > 170`; it returns `1` for `0 ≤ n ≤ 1`,
and for `2 ≤ n ≤ 170` the left-to-right iterative product
`2 × 3 × … × n` — which equals `n!` in exact arithmetic — so in
particular `factorial(5) = 120`. -/
theorem C4_factorial_spec (n : Int) :
    (n < 0 → factorial n = .error .invalidArgument) ∧
    (170 < n → factorial n = .error .overflowError) ∧
    (0 ≤ n → n ≤ 1 → factorial n = .ok 1) ∧
    (2 ≤ n → n ≤ 170 →
      factorial n = .ok (factLoop n.toNat) ∧
      factLoop n.toNat = ((Nat.factorial n.toNat : ℚ))) ∧
    factorial 5 = .ok 120 := by
  refine ⟨?_, ?_, ?_, ?_, ?_⟩
  · intro h
    unfold factorial
    rw [if_pos h]
  · intro h
    unfold factorial
    rw [if_neg (by omega), if_pos h]
  · intro h0 h1
    unfold factorial
    rw [if_neg (by omega), if_neg (by omega), if_pos h1]
  · intro h2 h7
    constructor
    · unfold factorial
      rw [if_neg (by omega), if_neg (by omega), if_neg (by omega)]
    · exact factLoop_eq_factorial n.toNat (by omega)
  · have h := factorial_eq_ok 5 (by norm_num) (by norm_num)
    rw [h]
    norm_num [Nat.factorial]

/-- Claim C4, witness: the four regimes at `n = -1, 171, 0, 5`. -/
theorem C4_witness :
    factorial (-1) = .error .invalidArgument ∧
    factorial 171 = .error .overflowError ∧
    factorial 0 = .ok 1 ∧
    factorial 5 = .ok 120 :=
  ⟨(C4_factorial_spec (-1)).1 (by norm_num),
   (C4_factorial_spec 171).2.1 (by norm_num),
   (C4_factorial_spec 0).2.2.1 (by norm_num) (by norm_num),
   (C4_factorial_spec 5).2.2.2.2⟩

/-- Claim C5: `power(base, 0) = 1`; for a negative exponent, `power`
throws `std::invalid_argument` when `isZero(base)` (i.e. `|base| < 1e-9`)
and otherwise returns `1 / power(base, -exponent)`; for a positive
exponent it returns the repeated-squaring loop value, which equals
`base ^ exponent`; in particular `power(2, 10) = 1024` and
`power(2, -1) = 0.5` and `power(0, -3)` throws. -/
theorem C5_power_spec (base : ℚ) (e : Int) :
    power base 0 = .ok 1 ∧
    (e < 0 → isZero base EPS = true →
      power base e = .error .invalidArgument) ∧
    (e < 0 → isZero base EPS = false →
      power base e = (power base (-e)).map (fun r => 1 / r)) ∧
    (0 < e → power base e = .ok (powLoop 1 base e.toNat) ∧
      powLoop 1 base e.toNat = base ^ e.toNat) ∧
    power 2 10 = .ok 1024 ∧
    power 2 (-1) = .ok (1 / 2) ∧
    power 0 (-3) = .error .invalidArgument := by
  refine ⟨power_zero_eq base, power_neg_zero_base base e,
    power_neg_eq base e, ?_, ?_, ?_, ?_⟩
  · intro h
    exact ⟨power_pos_eq base e h, by rw [powLoop_eq, one_mul]⟩
  · rw [power_pos_eq 2 10 (by norm_num), powLoop_eq]
    show Except.ok (1 * (2 : ℚ) ^ (10 : ℕ)) = _
    norm_num
  · rw [power_neg_eq 2 (-1) (by norm_num)
      (by norm_num [isZero, absQ, EPS])]
    norm_num [power_pos_eq 2 1 (by norm_num : (0 : Int) < 1), powLoop_eq,
      Except.map]
  · exact power_neg_zero_base 0 (-3) (by norm_num)
      (by norm_num [isZero, absQ, EPS])

/-- Claim C5, witness: the negative-exponent regimes at concrete
inputs. -/
theorem C5_witness :
    power 3 (-2) = (power 3 2).map (fun r => 1 / r) ∧
    power 2 10 = .ok 1024 :=
  ⟨by
    have h := (C5_power_spec 3 (-2)).2.2.1 (by norm_num)
      (by norm_num [isZero, absQ, EPS])
    simp only [neg_neg] at h
    exact h,
   (C5_power_spec 2 10).2.2.2.2.1⟩

/-- Claim C6 (code bug): `power` does NOT terminate for every value of
its machine-integer exponent.  At `exponent = INT_MIN = -2^31` the C++
negation `-exponent` overflows (undefined behaviour; on two's-complement
hardware it wraps back to `INT_MIN`, as `wrap32` models), so the
recursion re-enters itself with the same exponent forever: the fuelled
evaluator returns `none` — fails to terminate — for every finite amount
of fuel, with a non-zero base that is not near zero.  (Everywhere above
`INT_MIN`, two units of fuel suffice: `powerFuel_eq_power`.) -/
theorem C6_power_min_int_diverges :
    ∀ fuel : Nat, powerFuel fuel 2 (-(2 ^ 31)) = none := by
  intro fuel
  induction fuel with
  | zero => rfl
  | succ n ih =>
    rw [powerFuel, if_neg (by omega), if_pos (by omega),
      if_neg (by norm_num [isZero, absQ, EPS])]
    have hw : wrap32 (-(-(2 ^ 31))) = -(2 ^ 31) := by
      norm_num [wrap32]
    rw [hw, ih]
    rfl

/-- Claim C7: frame independence of the two state fields.  Every
arithmetic operation and `clear` leave `memory_` unchanged (whether they
succeed or throw), and the memory operations `memoryStore` /
`memoryClear` leave `last_result_` unchanged (`memoryRecall` and
`getLastResult` are `const` reads modelled as pure projections). -/
theorem C7_frame_independence (c : BasicCalculator) (a b v : EDouble) :
    (c.add a b).2.memory_ = c.memory_ ∧
    (c.substract a b).2.memory_ = c.memory_ ∧
    (c.multiply a b).2.memory_ = c.memory_ ∧
    (c.divide a b).2.memory_ = c.memory_ ∧
    c.clear.memory_ = c.memory_ ∧
    (c.memoryStore v).last_result_ = c.last_result_ ∧
    c.memoryClear.last_result_ = c.last_result_ := by
  refine ⟨?_, ?_, ?_, ?_, rfl, rfl, rfl⟩ <;>
  · simp only [BasicCalculator.add, BasicCalculator.substract,
      BasicCalculator.multiply, BasicCalculator.divide]
    split <;> rfl

/-- Claim C8: `memoryStore(v); memoryRecall()` returns exactly `v`;
`memoryClear(); memoryRecall()` returns `0`; `clear(); getLastResult()`
returns `0`; and `clear` leaves `memory_` intact.  All five
memory/utility operations are modelled as total pure functions — they
have no failure path in the source. -/
theorem C8_memory_roundtrip (c : BasicCalculator) (v : EDouble) :
    (c.memoryStore v).memoryRecall = v ∧
    c.memoryClear.memoryRecall = .fin 0 ∧
    c.clear.getLastResult = .fin 0 ∧
    c.clear.memory_ = c.memory_ ∧
    c.getLastResult = c.last_result_ ∧
    c.memoryRecall = c.memory_ :=
  ⟨rfl, rfl, rfl, rfl, rfl, rfl⟩

/-- Claim C9, counterexample: the round trip is NOT within epsilon of
every finite `x`.  At the finite input `x = DBL_MAX` the first step of
`degreeToRadian` computes `x * M_PI`, which exceeds the largest finite
double and overflows to `+inf`; the rest of the round trip stays `+inf`,
and `areEqual(+inf, x, 1e-9)` is false. -/
theorem C9_cex_roundtrip_overflow :
    EDouble.isFinite (.fin MAXD) = true ∧
    degreeToRadian (.fin MAXD) = .pinf ∧
    radianToDegree (degreeToRadian (.fin MAXD)) = .pinf ∧
    areEqualD (radianToDegree (degreeToRadian (.fin MAXD))) (.fin MAXD)
      EPS = false := by
  have h1 : degreeToRadian (.fin MAXD) = .pinf := by
    unfold degreeToRadian
    rw [EDouble.mul_fin, roundD_of_gt _ (by norm_num [MAXD, M_PI])]
    show (if (180 : ℚ) < 0 then EDouble.ninf else EDouble.pinf) = _
    rw [if_neg (by norm_num)]
  have h2 : radianToDegree .pinf = .pinf := by
    unfold radianToDegree
    have hm : EDouble.pinf.mul (.fin 180) = .pinf := by
      show (if (180 : ℚ) > 0 then EDouble.pinf
        else if (180 : ℚ) < 0 then EDouble.ninf else EDouble.nan) = _
      rw [if_pos (by norm_num)]
    rw [hm]
    show (if M_PI < 0 then EDouble.ninf else EDouble.pinf) = _
    rw [if_neg (by norm_num [M_PI])]
  refine ⟨rfl, h1, by rw [h1, h2], ?_⟩
  rw [h1, h2]
  rfl

/-- Claim C9 (amended): the angle-conversion round trip
`radianToDegree(degreeToRadian(x))` returns exactly `x` — in particular
is within the `1e-9` epsilon of `x` per `areEqual` — for every finite `x`
whose conversion stays within the finite double range, i.e. whenever the
product `x * M_PI` does not overflow (`|x * M_PI| ≤ DBL_MAX`); in exact
rational arithmetic the `M_PI` and `180` factors then cancel.  For larger
finite `x` the conversion overflows to `+inf` and the round trip fails
(see the counterexample at `x = DBL_MAX`). -/
theorem C9_roundtrip_within_range (x : ℚ) (h1 : |x * M_PI| ≤ MAXD) :
    radianToDegree (degreeToRadian (.fin x)) = .fin x ∧
    areEqualD (radianToDegree (degreeToRadian (.fin x))) (.fin x) EPS
      = true := by
  have hMPIpos : (0 : ℚ) < M_PI := by norm_num [M_PI]
  have hMAXD : (0 : ℚ) ≤ MAXD := by norm_num [MAXD]
  have hd : degreeToRadian (.fin x) = .fin (x * M_PI / 180) := by
    unfold degreeToRadian
    rw [EDouble.mul_fin, roundD_of_abs_le _ h1,
      EDouble.div_fin _ _ (by norm_num), roundD_of_abs_le]
    have habs : |x * M_PI / 180| = |x * M_PI| / 180 := by
      rw [abs_div]
      norm_num
    rw [habs]
    calc |x * M_PI| / 180 ≤ MAXD / 180 := by linarith
      _ ≤ MAXD := by linarith
  have hr : radianToDegree (.fin (x * M_PI / 180)) = .fin x := by
    unfold radianToDegree
    have hcancel : x * M_PI / 180 * 180 = x * M_PI :=
      div_mul_cancel₀ _ (by norm_num)
    rw [EDouble.mul_fin, hcancel, roundD_of_abs_le _ h1,
      EDouble.div_fin _ _ (by norm_num [M_PI] : M_PI ≠ 0)]
    have hx : x * M_PI / M_PI = x :=
      mul_div_cancel_right₀ _ (by norm_num [M_PI])
    rw [hx]
    apply roundD_of_abs_le
    have habs : |x * M_PI| = |x| * M_PI := by
      rw [abs_mul, abs_of_pos hMPIpos]
    rw [habs] at h1
    have hge : |x| * 1 ≤ |x| * M_PI :=
      mul_le_mul_of_nonneg_left (by norm_num [M_PI] : (1 : ℚ) ≤ M_PI)
        (abs_nonneg x)
    linarith
  rw [hd, hr]
  have hsub : (EDouble.fin x).sub (.fin x) = .fin 0 := by
    rw [EDouble.sub_fin, sub_self]
    exact roundD_of_abs_le 0 (by norm_num [MAXD])
  refine ⟨rfl, ?_⟩
  norm_num [areEqualD, hsub, absQ, EPS]

/-- Claim C9, witness: the round trip at `x = 37` degrees, which is well
inside the non-overflowing range. -/
theorem C9_witness :
    |(37 : ℚ) * M_PI| ≤ MAXD ∧
    areEqualD (radianToDegree (degreeToRadian (.fin 37))) (.fin 37) EPS
      = true := by
  have h : |(37 : ℚ) * M_PI| ≤ MAXD := by
    rw [abs_of_pos (by norm_num [M_PI])]
    norm_num [M_PI, MAXD]
  exact ⟨h, (C9_roundtrip_within_range 37 h).2⟩

/-- Claim C10: on the whole accepted domain `0 ≤ n ≤ 170` the factorial
product is a finite value `≥ 1`: it equals `n!`, which is at most
`170! < MAXD`, the largest finite double — which is what justifies the
`n > 170` rejection boundary. -/
theorem C10_factorial_in_range (n : Int) (h0 : 0 ≤ n) (h1 : n ≤ 170) :
    factorial n = .ok ((Nat.factorial n.toNat : ℚ)) ∧
    1 ≤ ((Nat.factorial n.toNat : ℚ)) ∧
    ((Nat.factorial n.toNat : ℚ)) ≤ MAXD := by
  refine ⟨factorial_eq_ok n h0 h1, ?_,
    factorial_cast_le_MAXD n.toNat (by omega)⟩
  exact_mod_cast Nat.one_le_iff_ne_zero.mpr (Nat.factorial_ne_zero _)

/-- Claim C10, witness: the boundary case `n = 170` itself. -/
theorem C10_witness :
    (0 : Int) ≤ 170 ∧ (170 : Int) ≤ 170 ∧
    (factorial 170 = .ok ((Nat.factorial (170 : Int).toNat : ℚ)) ∧
     1 ≤ ((Nat.factorial (170 : Int).toNat : ℚ)) ∧
     ((Nat.factorial (170 : Int).toNat : ℚ)) ≤ MAXD) :=
  ⟨by norm_num, by norm_num,
   C10_factorial_in_range 170 (by norm_num) (by norm_num)⟩

end Calc
